import Mathlib

/-! Verification development for the `ttl` expression-trait and predicate layer.

Shallow embedding of

* `include/ttl2/mp.hpp` : the type-level predicate library and the dimension unifier,
* `include/ttl/Expressions/traits.h` : the trait record of a bare tensor and the
  derived accessors,
* `include/ttl/Index.h` : the index label.

Everything in these headers is evaluated by the C++ translator.  A class template with
a `value` member becomes a Lean function, a `static_assert` that can fail becomes an
`Option` result (`none` is the hard translation failure), and C++ types become values
of the inductive type `CType`.
-/

namespace ttl

/-! ## C++ types as data -/

/-- The fundamental types of C++ that the predicates can be asked about. -/
inductive Fundamental
  | void | bool | char | schar | uchar | wchar | char16 | char32
  | short | ushort | int | uint | long | ulong | llong | ullong
  | float | double | ldouble
  deriving DecidableEq, Repr

/-- Value of `std::numeric_limits<T>::is_integer` for a fundamental type `T`. -/
def Fundamental.is_integer : Fundamental → Bool
  | .void | .float | .double | .ldouble => false
  | _ => true

/-- Whether a type is an object type, an lvalue reference or an rvalue reference. -/
inductive RefKind
  | none | lvalue | rvalue
  deriving DecidableEq, Repr

/-- The outermost qualification of a type: the reference kind, and the top-level
`const` / `volatile` of the object type (of the referred-to type, for a reference). -/
structure Qual where
  ref : RefKind
  isConst : Bool
  isVolatile : Bool
  deriving DecidableEq, Repr

/-- No qualification: an object type that is neither `const` nor `volatile`. -/
@[match_pattern] def Qual.none : Qual := ⟨RefKind.none, false, false⟩

/-- C++ types, as far as the three headers distinguish them.  Every constructor carries
the outermost qualification, so `const double` is `fund ⟨none, true, false⟩ double` and
`const double &` is `fund ⟨lvalue, true, false⟩ double`; there is no reference to a
reference and no cv-qualified reference, as in C++. -/
inductive CType
  /-- A fundamental type. -/
  | fund (q : Qual) (f : Fundamental)
  /-- Some other class type, identified by its name (an expression node, say). -/
  | cls (q : Qual) (name : String)
  /-- An index label `ttl::Index<id>`. -/
  | index (q : Qual) (id : Char)
  /-- The product type `std::tuple<ts...>`. -/
  | tuple (q : Qual) (ts : List CType)
  /-- The tensor type `ttl::Tensor<R, D, S>`. -/
  | tensor (q : Qual) (R D : Int) (S : CType)
  /-- The pointer type `pointee *`, the qualification being that of the pointer. -/
  | ptr (q : Qual) (pointee : CType)
  deriving Repr

namespace CType

/-- The outermost qualification of a type. -/
def qual : CType → Qual
  | fund q _ => q
  | cls q _ => q
  | index q _ => q
  | tuple q _ => q
  | tensor q _ _ _ => q
  | ptr q _ => q

/-- The same type with another outermost qualification. -/
def with_qual (q : Qual) : CType → CType
  | fund _ f => fund q f
  | cls _ n => cls q n
  | index _ c => index q c
  | tuple _ ts => tuple q ts
  | tensor _ R D S => tensor q R D S
  | ptr _ t => ptr q t

/-- The type `T const` formed from `T`; a reference type stays as it is. -/
def add_const (T : CType) : CType :=
  match T.qual with
  | ⟨RefKind.none, _, v⟩ => T.with_qual ⟨RefKind.none, true, v⟩
  | _ => T

/-- The type `T volatile` formed from `T`; a reference type stays as it is. -/
def add_volatile (T : CType) : CType :=
  match T.qual with
  | ⟨RefKind.none, c, _⟩ => T.with_qual ⟨RefKind.none, c, true⟩
  | _ => T

/-- The type `T &` formed from `T`; by reference collapsing it is an lvalue reference
whatever `T` is. -/
def add_lvalue_reference (T : CType) : CType :=
  T.with_qual ⟨RefKind.lvalue, T.qual.isConst, T.qual.isVolatile⟩

/-- The type `T &&` formed from `T`; by reference collapsing an lvalue reference stays
an lvalue reference. -/
def add_rvalue_reference (T : CType) : CType :=
  match T.qual with
  | ⟨RefKind.lvalue, _, _⟩ => T
  | ⟨_, c, v⟩ => T.with_qual ⟨RefKind.rvalue, c, v⟩

/-- The library alias `std::remove_reference_t`. -/
def remove_reference (T : CType) : CType :=
  T.with_qual ⟨RefKind.none, T.qual.isConst, T.qual.isVolatile⟩

/-- The library alias `std::remove_cv_t`: drops the top-level qualification of an object
type; a reference type has none. -/
def remove_cv (T : CType) : CType :=
  match T.qual with
  | ⟨RefKind.none, _, _⟩ => T.with_qual Qual.none
  | _ => T

/-- The library alias `std::remove_pointer_t`: the pointee of a (possibly cv-qualified)
pointer type, and the type itself otherwise. -/
def remove_pointer : CType → CType
  | ptr ⟨RefKind.none, _, _⟩ t => t
  | t => t

/-- Whether the type is a pointer type (`std::is_pointer`). -/
def is_pointer : CType → Bool
  | ptr ⟨RefKind.none, _, _⟩ _ => true
  | _ => false

/-- Whether the type is an unqualified specialization of `std::tuple`. -/
def is_tuple : CType → Bool
  | tuple Qual.none _ => true
  | _ => false

/-- The library trait `std::tuple_size`: the number of elements of a tuple type
(cv-qualified or not). -/
def tuple_size : CType → Option Nat
  | tuple ⟨RefKind.none, _, _⟩ ts => some ts.length
  | _ => Option.none

end CType

/-! ## The predicate library (`mp.hpp`) -/

/-- The predicate `is_integer<T>`: `std::numeric_limits<T>::is_integer`.  The library
specializes `numeric_limits` for the arithmetic types and their cv-qualified versions;
every other type gets the primary template, whose `is_integer` is `false`. -/
def is_integer : CType → Bool
  | .fund ⟨RefKind.none, _, _⟩ f => f.is_integer
  | _ => false

/-- The fold `all<P, Ts...>`: the primary template gives `true`, the specialization for
a non-empty list gives `P<T>::value and all<P, U...>::value`. -/
def all (P : CType → Bool) : List CType → Bool
  | [] => true
  | T :: U => P T && all P U

/-- The alias `all_integer<U...>`. -/
def all_integer (U : List CType) : Bool := all is_integer U

/-- The template `has_integer<U...>`.  The primary template gives `false`; of the two
specializations, the one for a lone unqualified `std::tuple<T...>` is the more specialized
and is chosen whenever it matches; every other non-empty list takes
`is_integer<T>::value or has_integer<U...>::value`. -/
def has_integer : List CType → Bool
  | [] => false
  | [.tuple Qual.none T] => has_integer T
  | T :: U => is_integer T || has_integer U

/-- Modelled from the spec: the predicate `is_index<T>`, which `mp.hpp` uses and does
not define; it is true exactly for an index label type `Index<ID>`. -/
def is_index : CType → Bool
  | .index ⟨RefKind.none, _, _⟩ _ => true
  | _ => false

/-- The predicate `is_valid<T>`: `is_index<T>::value or is_integer<T>::value`.  The
predicate `is_index` is not defined in the header and is taken as given. -/
def is_valid (is_index : CType → Bool) (T : CType) : Bool :=
  is_index T || is_integer T

/-- The alias `all_valid<U...>`. -/
def all_valid (is_index : CType → Bool) (U : List CType) : Bool :=
  all (is_valid is_index) U

/-- The fold `all_convertible<To, U...>`: the primary template gives `true`, the
specialization for a non-empty list gives
`std::is_convertible<From, To>::value and all_convertible<To, U...>::value`.  The library
relation `std::is_convertible<From, To>` is taken as given, source type first. -/
def all_convertible (is_convertible : CType → CType → Bool) (To : CType) :
    List CType → Bool
  | [] => true
  | From :: U => is_convertible From To && all_convertible is_convertible To U

/-- The member `type` of `iif<B, T, F>`: the primary template gives `T`, the
specialization `iif<false, T, F>` gives `F`. -/
def iif : Bool → CType → CType → CType
  | false, _, F => F
  | _, T, _ => T

/-- The alias `iif_t<B, T, F>`: `typename iif<B, T, F>::type`. -/
def iif_t (B : Bool) (T F : CType) : CType := iif B T F

/-! ## The dimension unifier (`mp.hpp`, lines 68-74) -/

/-- The condition of the `static_assert` inside `dimension<Lhs, Rhs>`:
`L == R or ((L == -1) xor (R == -1))`, with `L = Lhs::D` and `R = Rhs::D`. -/
def dimension_assert (L R : Int) : Bool :=
  L == R || xor (L == -1) (R == -1)

/-- The member `value` of `dimension<Lhs, Rhs>`: `(L < R) ? R : L`. -/
def dimension_value (L R : Int) : Int :=
  if L < R then R else L

/-- Instantiating `dimension<Lhs, Rhs>`: when the static assertion holds the result is
`some value`, otherwise the instantiation is a translation failure, `none`. -/
def dimension (L R : Int) : Option Int :=
  if dimension_assert L R then some (dimension_value L R) else none

namespace expressions

/-! ## The trait record and the derived accessors (`traits.h`) -/

/-- The members of a `traits<E>` specialization.  `dimension` and `rank` are
`std::integral_constant<int, _>` types and are kept as their `value`. -/
structure TraitRecord where
  outer_type : CType
  inner_type : CType
  scalar_type : CType
  dimension : Int
  rank : Int
  deriving Repr

/-- The class template `traits<E>`.  The primary template is declared and never defined,
so a type without a specialization has no record.  The header gives the specialization
for `Tensor<R, D, S>`; `other` stands for the specializations that the rest of the
library gives for its own node types. -/
def traits (other : CType → Option TraitRecord) : CType → Option TraitRecord
  | .tensor Qual.none R D S =>
      some { outer_type := .tuple Qual.none []
             inner_type := .tuple Qual.none []
             scalar_type := S.remove_pointer
             dimension := D
             rank := R }
  | E => other E

/-- No specialization besides the one of the header. -/
def no_other : CType → Option TraitRecord := fun _ => none

/-- The alias `rinse<E>`: `std::remove_cv_t<std::remove_reference_t<E>>`. -/
def rinse (E : CType) : CType := E.remove_reference.remove_cv

/-- The accessor `outer_type<E>`. -/
def outer_type (other : CType → Option TraitRecord) (E : CType) : Option CType :=
  (traits other (rinse E)).map (·.outer_type)

/-- The accessor `inner_type<E>`. -/
def inner_type (other : CType → Option TraitRecord) (E : CType) : Option CType :=
  (traits other (rinse E)).map (·.inner_type)

/-- The accessor `scalar_type<E>`. -/
def scalar_type (other : CType → Option TraitRecord) (E : CType) : Option CType :=
  (traits other (rinse E)).map (·.scalar_type)

/-- The accessor `dimension<E>` (its `value`). -/
def dimension (other : CType → Option TraitRecord) (E : CType) : Option Int :=
  (traits other (rinse E)).map (·.dimension)

/-- The accessor `rank<E>` (its `value`). -/
def rank (other : CType → Option TraitRecord) (E : CType) : Option Int :=
  (traits other (rinse E)).map (·.rank)

/-- The alias `tensor_type<E>`:
`Tensor<rank<E>::value, dimension<E>::value, rinse<scalar_type<E>>>`. -/
def tensor_type (other : CType → Option TraitRecord) (E : CType) : Option CType :=
  (rank other E).bind fun r =>
  (dimension other E).bind fun d =>
  (scalar_type other E).bind fun s =>
  some (.tensor Qual.none r d (rinse s))

/-- The six ways of writing the expression type that the accessors meet:
`E`, `const E`, `volatile E`, `E&`, `const E&` and `E&&`. -/
def qualified_forms (E : CType) : List CType :=
  [E, E.add_const, E.add_volatile, E.add_lvalue_reference,
   E.add_const.add_lvalue_reference, E.add_rvalue_reference]

end expressions

/-! ## The index label (`Index.h`) -/

/-- The largest value of the C++ type `int`. -/
def INT_MAX : Int := 2147483647

/-- The smallest value of the C++ type `int`. -/
def INT_MIN : Int := -2147483648

/-- The class template `Index<ID>`: the symbol `ID` is a template parameter, the only
data member is the counter `value_`. -/
structure Index (ID : Char) where
  value_ : Int
  deriving DecidableEq, Repr

namespace Index

variable {ID : Char}

/-- The static member `id`: `static constexpr char id = ID`. -/
def id (_ : Index ID) : Char := ID

/-- The type of a label object, `Index<ID>`. -/
def type_of (_ : Index ID) : CType := .index Qual.none ID

/-- The default constructor `Index()`: `value_(0)`. -/
def ctor : Index ID := ⟨0⟩

/-- The constructor `explicit Index(int value)`: `value_(value)`. -/
def ctor_int (value : Int) : Index ID := ⟨value⟩

/-- The assignment `Index& operator=(int i)`: `value_ = i; return *this;`.  The result is
the label after the assignment.  (The header also declares a `const` overload with the
same body; it writes to a member of a const object and cannot be instantiated.) -/
def assign (_ : Index ID) (i : Int) : Index ID := ⟨i⟩

/-- The conversion `operator int() const`: `return value_;`. -/
def to_int (x : Index ID) : Int := x.value_

/-- The comparison `bool operator<(int e) const`: `return value_ < e;`. -/
def lt (x : Index ID) (e : Int) : Bool := decide (x.value_ < e)

/-- The pre-increment `Index& operator++()`: `++value_; return *this;`.  Incrementing the
largest `int` is signed overflow, which has no defined result: `none`. -/
def pre_increment (x : Index ID) : Option (Index ID) :=
  if x.value_ < INT_MAX then some ⟨x.value_ + 1⟩ else none

/-- The two operations that change a label. -/
inductive Op
  | assign (i : Int)
  | increment
  deriving DecidableEq, Repr

/-- One operation applied to a label. -/
def step (x : Index ID) : Op → Option (Index ID)
  | .assign i => some (x.assign i)
  | .increment => x.pre_increment

/-- A sequence of operations applied to a label, first to last. -/
def run (x : Index ID) : List Op → Option (Index ID)
  | [] => some x
  | op :: ops => (x.step op).bind fun y => y.run ops

end Index

end ttl

/-! ## Theorems -/

section DimensionUnifier

open ttl

theorem dimension_assert_iff (L R : Int) :
    dimension_assert L R = true ↔ (L = R ∨ (L = -1 ∧ R ≠ -1) ∨ (L ≠ -1 ∧ R = -1)) := by
  unfold dimension_assert
  by_cases hL : L = -1 <;> by_cases hR : R = -1 <;> simp [hL, hR]

theorem dimension_isSome_iff (L R : Int) :
    (dimension L R).isSome = true ↔ dimension_assert L R = true := by
  unfold dimension
  split <;> simp_all

/-- Claim C1. The dimension unifier is accepted exactly when the two operand dimensions
are equal or exactly one of them is the sentinel `-1`; two concrete (non-sentinel)
dimensions that differ, such as `(3, 4)`, make the unifier fail and yield no value. -/
theorem C1_dimension_accepted_iff (L R : Int) :
    ((dimension L R).isSome = true ↔
        (L = R ∨ (L = -1 ∧ R ≠ -1) ∨ (L ≠ -1 ∧ R = -1))) ∧
    (L ≠ -1 → R ≠ -1 → L ≠ R → dimension L R = none) ∧
    dimension 3 4 = none := by
  refine ⟨?_, ?_, by decide⟩
  · rw [dimension_isSome_iff, dimension_assert_iff]
  · intro hL hR hne
    have h : ¬ (dimension_assert L R = true) := by
      rw [dimension_assert_iff]
      rintro (h | ⟨h, _⟩ | ⟨_, h⟩)
      · exact hne h
      · exact hL h
      · exact hR h
    simp [dimension, h]

/-- Witness for C1 at the concrete, unequal dimensions `(7, 2)`. -/
theorem C1_dimension_accepted_iff_witness : dimension 7 2 = none :=
  (C1_dimension_accepted_iff 7 2).2.1 (by decide) (by decide) (by decide)

/-- Counterexample to C2: on two unknown operands `(-1, -1)` the static assertion holds
(through its `L == R` disjunct) and the unifier does yield a value. -/
theorem C2_two_unknowns_accepted_counterexample :
    dimension_assert (-1) (-1) ≠ false ∧ dimension (-1) (-1) ≠ none := by
  decide

/-- Claim C2, amended. Unifying two unknown dimensions is accepted: when both operands
are the sentinel `-1` the static assertion holds and the unifier yields `-1`; the
unifier fails exactly on two different operands neither of which is `-1`. -/
theorem C2_two_unknowns_yield_unknown :
    dimension_assert (-1) (-1) = true ∧ dimension (-1) (-1) = some (-1) ∧
    ∀ L R : Int, dimension L R = none ↔ (L ≠ R ∧ L ≠ -1 ∧ R ≠ -1) := by
  refine ⟨by decide, by decide, ?_⟩
  intro L R
  have h := dimension_assert_iff L R
  unfold dimension
  by_cases ha : dimension_assert L R = true
  · simp only [ha, if_true]
    have h1 := h.mp ha
    constructor
    · intro h2; cases h2
    · rintro ⟨h2, h3, h4⟩
      rcases h1 with h1 | ⟨h1, _⟩ | ⟨_, h1⟩
      · exact absurd h1 h2
      · exact absurd h1 h3
      · exact absurd h1 h4
  · simp only [ha]
    have h1 : ¬ (L = R ∨ (L = -1 ∧ R ≠ -1) ∨ (L ≠ -1 ∧ R = -1)) := fun h2 => ha (h.mpr h2)
    simp only [if_false, true_iff, Bool.false_eq_true]
    refine ⟨fun h2 => h1 (Or.inl h2), fun h2 => ?_, fun h2 => ?_⟩
    · by_cases h3 : R = -1
      · exact h1 (Or.inl (h2.trans h3.symm))
      · exact h1 (Or.inr (Or.inl ⟨h2, h3⟩))
    · by_cases h3 : L = -1
      · exact h1 (Or.inl (h3.trans h2.symm))
      · exact h1 (Or.inr (Or.inr ⟨h3, h2⟩))

/-- Claim C3. For every concrete positive dimension `d` the unifier is accepted and
yields `d` on `(d, -1)`, on `(-1, d)` and on `(d, d)`; so `(5, -1)` and `(-1, 5)` yield
`5` and `(3, 3)` yields `3`. -/
theorem C3_dimension_yields_concrete (d : Int) (hd : 0 < d) :
    dimension d (-1) = some d ∧ dimension (-1) d = some d ∧ dimension d d = some d ∧
    dimension 5 (-1) = some 5 ∧ dimension (-1) 5 = some 5 ∧ dimension 3 3 = some 3 := by
  have h1 : ¬ (d = -1) := by omega
  have h2 : ¬ (d < -1) := by omega
  have h3 : (-1 : Int) < d := by omega
  refine ⟨?_, ?_, ?_, by decide, by decide, by decide⟩
  · simp [dimension, dimension_assert, dimension_value, h1, h2]
  · simp [dimension, dimension_assert, dimension_value, h1, h3]
  · simp [dimension, dimension_assert, dimension_value]

/-- Witness for C3 at `d = 8`. -/
theorem C3_dimension_yields_concrete_witness :
    (0 : Int) < 8 ∧ dimension 8 (-1) = some 8 ∧ dimension (-1) 8 = some 8 ∧
      dimension 8 8 = some 8 :=
  ⟨by decide, (C3_dimension_yields_concrete 8 (by decide)).1,
    (C3_dimension_yields_concrete 8 (by decide)).2.1,
    (C3_dimension_yields_concrete 8 (by decide)).2.2.1⟩

theorem dimension_assert_comm (L R : Int) : dimension_assert L R = dimension_assert R L := by
  rw [Bool.eq_iff_iff, dimension_assert_iff, dimension_assert_iff]
  constructor <;> rintro (h | ⟨h, k⟩ | ⟨h, k⟩)
  · exact Or.inl h.symm
  · exact Or.inr (Or.inr ⟨k, h⟩)
  · exact Or.inr (Or.inl ⟨k, h⟩)
  · exact Or.inl h.symm
  · exact Or.inr (Or.inr ⟨k, h⟩)
  · exact Or.inr (Or.inl ⟨k, h⟩)

theorem dimension_value_comm (L R : Int) : dimension_value L R = dimension_value R L := by
  unfold dimension_value
  split <;> split <;> omega

/-- Claim C4. The dimension unifier is commutative: for all integer operands `L`, `R`
the unifier is accepted on `(L, R)` exactly when it is accepted on `(R, L)`, and the two
results (acceptance and value) coincide. -/
theorem C4_dimension_comm (L R : Int) :
    ((dimension L R).isSome = true ↔ (dimension R L).isSome = true) ∧
    dimension L R = dimension R L := by
  have h : dimension L R = dimension R L := by
    unfold dimension
    rw [dimension_assert_comm L R, dimension_value_comm L R]
  exact ⟨by rw [h], h⟩

end DimensionUnifier

section Traits

open ttl ttl.expressions

theorem rinse_tensor (R D : Int) (S : CType) :
    rinse (.tensor Qual.none R D S) = .tensor Qual.none R D S := rfl

theorem traits_tensor (other : CType → Option TraitRecord) (R D : Int) (S : CType) :
    traits other (.tensor Qual.none R D S) =
      some { outer_type := .tuple Qual.none []
             inner_type := .tuple Qual.none []
             scalar_type := S.remove_pointer
             dimension := D
             rank := R } := rfl

theorem remove_pointer_of_not_pointer (S : CType) (h : S.is_pointer = false) :
    S.remove_pointer = S := by
  unfold CType.remove_pointer
  split
  · simp [CType.is_pointer] at h
  · rfl

/-- Counterexample to C5: the bare tensor `Tensor<2, 3, double>` has a trait record whose
rank is `2` while its outer index set `std::tuple<>` holds no label. -/
theorem C5_rank_ne_outer_size_counterexample :
    rank no_other (.tensor Qual.none 2 3 (.fund Qual.none .double)) = some 2 ∧
    (outer_type no_other (.tensor Qual.none 2 3 (.fund Qual.none .double))).bind
      CType.tuple_size = some 0 := by
  constructor <;> rfl

/-- Claim C5, amended. For every bare tensor `Tensor<R, D, S>` the trait record has rank
`R` and an outer index set with no label, so `rank<E>` equals the number of labels of
`outer_type<E>` exactly when `R = 0`. -/
theorem C5_bare_tensor_rank_vs_outer (other : CType → Option TraitRecord) (R D : Int)
    (S : CType) :
    rank other (.tensor Qual.none R D S) = some R ∧
    (outer_type other (.tensor Qual.none R D S)).bind CType.tuple_size = some 0 ∧
    (rank other (.tensor Qual.none R D S) =
        ((outer_type other (.tensor Qual.none R D S)).bind CType.tuple_size).map Int.ofNat
      ↔ R = 0) := by
  refine ⟨rfl, rfl, ?_⟩
  show (some R = some (Int.ofNat 0)) ↔ R = 0
  simp

/-- Claim C6. For every bare tensor type `Tensor<R, D, S>` the trait record has an empty
outer and an empty inner index set, rank `R`, dimension `D`, and as scalar type `S` with
one level of pointer removed: the pointee when `S` is a pointer, `S` itself otherwise. -/
theorem C6_bare_tensor_traits (other : CType → Option TraitRecord) (R D : Int)
    (S : CType) :
    outer_type other (.tensor Qual.none R D S) = some (.tuple Qual.none []) ∧
    inner_type other (.tensor Qual.none R D S) = some (.tuple Qual.none []) ∧
    rank other (.tensor Qual.none R D S) = some R ∧
    dimension other (.tensor Qual.none R D S) = some D ∧
    scalar_type other (.tensor Qual.none R D S) = some S.remove_pointer ∧
    (∀ c v P, S = .ptr ⟨.none, c, v⟩ P →
      scalar_type other (.tensor Qual.none R D S) = some P) ∧
    (S.is_pointer = false → scalar_type other (.tensor Qual.none R D S) = some S) := by
  refine ⟨rfl, rfl, rfl, rfl, rfl, ?_, ?_⟩
  · intro c v P h
    subst h
    rfl
  · intro h
    show some S.remove_pointer = some S
    rw [remove_pointer_of_not_pointer S h]

/-- Witness for C6 on `Tensor<2, 3, double* const>` and on `Tensor<2, 3, double>`. -/
theorem C6_bare_tensor_traits_witness :
    scalar_type no_other (.tensor Qual.none 2 3 (.ptr ⟨.none, true, false⟩ (.fund Qual.none .double)))
      = some (.fund Qual.none .double) ∧
    scalar_type no_other (.tensor Qual.none 2 3 (.fund Qual.none .double))
      = some (.fund Qual.none .double) :=
  ⟨(C6_bare_tensor_traits no_other 2 3 (.ptr ⟨.none, true, false⟩ (.fund Qual.none .double))).2.2.2.2.2.1
      true false (.fund Qual.none .double) rfl,
   (C6_bare_tensor_traits no_other 2 3 (.fund Qual.none .double)).2.2.2.2.2.2 rfl⟩

/-- Counterexample to C7: for `E = Tensor<2, 3, double**>` the scalar type of `E` is
`double*`, `tensor_type<E>` is `Tensor<2, 3, double*>`, and the scalar type of that is
`double`, which is not `double*`. -/
theorem C7_round_trip_pointer_counterexample :
    scalar_type no_other
        (.tensor Qual.none 2 3 (.ptr Qual.none (.ptr Qual.none (.fund Qual.none .double))))
      = some (.ptr Qual.none (.fund Qual.none .double)) ∧
    tensor_type no_other
        (.tensor Qual.none 2 3 (.ptr Qual.none (.ptr Qual.none (.fund Qual.none .double))))
      = some (.tensor Qual.none 2 3 (.ptr Qual.none (.fund Qual.none .double))) ∧
    (tensor_type no_other
        (.tensor Qual.none 2 3 (.ptr Qual.none (.ptr Qual.none (.fund Qual.none .double))))).bind
        (scalar_type no_other)
      = some (.fund Qual.none .double) ∧
    (tensor_type no_other
        (.tensor Qual.none 2 3 (.ptr Qual.none (.ptr Qual.none (.fund Qual.none .double))))).bind
        (scalar_type no_other)
      ≠ (scalar_type no_other
          (.tensor Qual.none 2 3 (.ptr Qual.none (.ptr Qual.none (.fund Qual.none .double))))).map
          rinse := by
  refine ⟨rfl, rfl, rfl, ?_⟩
  intro h
  have h2 : (CType.fund Qual.none Fundamental.double) =
      CType.ptr Qual.none (.fund Qual.none .double) := Option.some.inj h
  cases h2

/-- Claim C7, amended. For every node type `E` with a defined trait record,
`tensor_type<E>` is defined and its own traits give rank `rank<E>`, dimension
`dimension<E>`, and as scalar type `scalar_type<E>` with reference and cv qualification
stripped and then one level of pointer removed; whenever the stripped scalar type is not
a pointer the scalar type is `scalar_type<E>` with qualification stripped. -/
theorem C7_tensor_type_round_trip (other : CType → Option TraitRecord) (E : CType)
    (tr : TraitRecord) (h : traits other (rinse E) = some tr) :
    tensor_type other E
      = some (.tensor Qual.none tr.rank tr.dimension (rinse tr.scalar_type)) ∧
    rank other E = some tr.rank ∧
    (tensor_type other E).bind (rank other) = some tr.rank ∧
    dimension other E = some tr.dimension ∧
    (tensor_type other E).bind (dimension other) = some tr.dimension ∧
    scalar_type other E = some tr.scalar_type ∧
    (tensor_type other E).bind (scalar_type other)
      = some (rinse tr.scalar_type).remove_pointer ∧
    ((rinse tr.scalar_type).is_pointer = false →
      (tensor_type other E).bind (scalar_type other) = some (rinse tr.scalar_type)) := by
  have hr : rank other E = some tr.rank := by simp [rank, h]
  have hd : dimension other E = some tr.dimension := by simp [expressions.dimension, h]
  have hs : scalar_type other E = some tr.scalar_type := by simp [scalar_type, h]
  have ht : tensor_type other E
      = some (.tensor Qual.none tr.rank tr.dimension (rinse tr.scalar_type)) := by
    simp [tensor_type, hr, hd, hs]
  refine ⟨ht, hr, ?_, hd, ?_, hs, ?_, ?_⟩
  · rw [ht]; rfl
  · rw [ht]; rfl
  · rw [ht]; rfl
  · intro hp
    rw [ht]
    show some (rinse tr.scalar_type).remove_pointer = some (rinse tr.scalar_type)
    rw [remove_pointer_of_not_pointer _ hp]

/-- Witness for C7 on `E = Tensor<2, 3, const double> const &`. -/
theorem C7_tensor_type_round_trip_witness :
    tensor_type no_other (.tensor ⟨.lvalue, true, false⟩ 2 3 (.fund ⟨.none, true, false⟩ .double))
      = some (.tensor Qual.none 2 3 (.fund Qual.none .double)) ∧
    (tensor_type no_other
        (.tensor ⟨.lvalue, true, false⟩ 2 3 (.fund ⟨.none, true, false⟩ .double))).bind
      (scalar_type no_other) = some (.fund Qual.none .double) :=
  have h := C7_tensor_type_round_trip no_other
    (.tensor ⟨.lvalue, true, false⟩ 2 3 (.fund ⟨.none, true, false⟩ .double))
    { outer_type := .tuple Qual.none []
      inner_type := .tuple Qual.none []
      scalar_type := .fund ⟨.none, true, false⟩ .double
      dimension := 3
      rank := 2 } rfl
  ⟨h.1, h.2.2.2.2.2.2.2 rfl⟩

theorem rinse_qualified_forms (E F : CType) (hF : F ∈ qualified_forms E) :
    rinse F = rinse E := by
  simp only [qualified_forms, List.mem_cons, List.mem_singleton, List.not_mem_nil,
    or_false] at hF
  rcases E with ⟨⟨r, c, v⟩, _⟩ | ⟨⟨r, c, v⟩, _⟩ | ⟨⟨r, c, v⟩, _⟩ | ⟨⟨r, c, v⟩, _⟩ |
      ⟨⟨r, c, v⟩, _, _, _⟩ | ⟨⟨r, c, v⟩, _⟩ <;>
    rcases hF with h | h | h | h | h | h <;> rw [h] <;> cases r <;> rfl

theorem rinse_idem (E : CType) : rinse (rinse E) = rinse E := by
  cases E <;> rfl

theorem rinse_eq_with_qual (E : CType) : rinse E = E.with_qual Qual.none := by
  cases E <;> rfl

theorem with_qual_qual (E : CType) (q : Qual) (h : E.qual = q) : E.with_qual q = E := by
  cases E <;> simp only [CType.qual] at h <;> subst h <;> rfl

theorem rinse_of_unqualified (E : CType) (h : E.qual = Qual.none) : rinse E = E := by
  rw [rinse_eq_with_qual, with_qual_qual E Qual.none h]

/-- Claim C8. The derived accessors do not see reference or top-level const/volatile
qualification: for every type `E` and each of `E`, `const E`, `volatile E`, `E&`,
`const E&`, `E&&`, the alias `rinse` and the accessors `outer_type`, `inner_type`,
`scalar_type`, `dimension`, `rank`, `tensor_type` give what they give for `E`; `rinse` is
idempotent; `rinse<E>` is `E` with its reference and its top-level qualification taken
off, so for an unqualified non-reference `E` it maps `E` and all six forms to `E`; and
`const int&` is rinsed to `int`. -/
theorem C8_accessors_ignore_qualification (other : CType → Option TraitRecord)
    (E : CType) :
    (∀ F ∈ qualified_forms E,
      rinse F = rinse E ∧
      outer_type other F = outer_type other E ∧
      inner_type other F = inner_type other E ∧
      scalar_type other F = scalar_type other E ∧
      dimension other F = dimension other E ∧
      rank other F = rank other E ∧
      tensor_type other F = tensor_type other E) ∧
    rinse (rinse E) = rinse E ∧
    rinse E = E.with_qual Qual.none ∧
    (E.qual = Qual.none → rinse E = E ∧ ∀ F ∈ qualified_forms E, rinse F = E) ∧
    rinse (.fund ⟨.lvalue, true, false⟩ .int) = .fund Qual.none .int := by
  refine ⟨?_, rinse_idem E, rinse_eq_with_qual E, ?_, rfl⟩
  · intro F hF
    have h := rinse_qualified_forms E F hF
    simp only [outer_type, inner_type, scalar_type, expressions.dimension, rank,
      tensor_type, h,
      and_self]
  · intro hE
    have hr := rinse_of_unqualified E hE
    refine ⟨hr, ?_⟩
    intro F hF
    rw [rinse_qualified_forms E F hF, hr]

/-- Witness for C8 on the node type `Tensor<2, 3, double>`: the form `const E&` is
rinsed to `E`. -/
theorem C8_accessors_ignore_qualification_witness :
    rinse (.tensor ⟨.lvalue, true, false⟩ 2 3 (.fund Qual.none .double))
      = .tensor Qual.none 2 3 (.fund Qual.none .double) :=
  ((C8_accessors_ignore_qualification no_other
      (.tensor Qual.none 2 3 (.fund Qual.none .double))).2.2.2.1 rfl).2 _
    (List.Mem.tail _ (List.Mem.tail _ (List.Mem.tail _ (List.Mem.tail _
      (List.Mem.head _)))))

end Traits

section Predicates

open ttl

theorem all_iff_forall (P : CType → Bool) (Ts : List CType) :
    all P Ts = true ↔ ∀ T ∈ Ts, P T = true := by
  induction Ts with
  | nil => simp [all]
  | cons T U ih => simp [all, ih]

/-- Claim C9. For every unary predicate `P` and every finite list of types `Ts`,
`all<P, Ts...>::value` is true exactly when `P<T>::value` is true for every `T` of the
list; it is true for the empty list, `all<is_integer, int, long, short>` is true and
`all<is_integer, int, float>` is false. -/
theorem C9_all_iff_every (P : CType → Bool) (Ts : List CType) :
    (all P Ts = true ↔ ∀ T ∈ Ts, P T = true) ∧
    all P [] = true ∧
    all is_integer [.fund Qual.none .int, .fund Qual.none .long, .fund Qual.none .short]
      = true ∧
    all is_integer [.fund Qual.none .int, .fund Qual.none .float] = false :=
  ⟨all_iff_forall P Ts, rfl, rfl, rfl⟩

theorem has_integer_nil : has_integer [] = false := by
  rw [has_integer]

theorem has_integer_tuple (Ts : List CType) :
    has_integer [.tuple Qual.none Ts] = has_integer Ts :=
  has_integer.eq_2 Ts

theorem has_integer_cons_of_not_tuple (T : CType) (U : List CType)
    (h : T.is_tuple = false) :
    has_integer (T :: U) = (is_integer T || has_integer U) := by
  rw [has_integer]
  intro Ts hT
  subst hT
  simp [CType.is_tuple] at h

theorem has_integer_cons_cons (T T2 : CType) (U : List CType) :
    has_integer (T :: T2 :: U) = (is_integer T || has_integer (T2 :: U)) := by
  rw [has_integer]
  intro Ts _ hU
  cases hU

theorem has_integer_flat (Ts : List CType) (h : ∀ T ∈ Ts, T.is_tuple = false) :
    has_integer Ts = true ↔ ∃ T ∈ Ts, is_integer T = true := by
  induction Ts with
  | nil => simp [has_integer_nil]
  | cons T U ih =>
    have hT : T.is_tuple = false := h T (List.mem_cons_self T U)
    have hU : ∀ X ∈ U, X.is_tuple = false := fun X hX => h X (List.mem_cons_of_mem T hX)
    rw [has_integer_cons_of_not_tuple T U hT]
    simp [ih hU]

/-- Claim C10. For every finite list `Ts` of types none of which is a tuple,
`has_integer<Ts...>::value` is true exactly when at least one `T` of the list is
integral (so it is false for the empty list), and the nested form
`has_integer<std::tuple<Ts...>>::value` equals `has_integer<Ts...>::value`;
`has_integer<float, double>` is false, `has_integer<float, int>` is true and
`has_integer<std::tuple<float, int>>` is true. -/
theorem C10_has_integer_iff_some (Ts : List CType) (h : ∀ T ∈ Ts, T.is_tuple = false) :
    (has_integer Ts = true ↔ ∃ T ∈ Ts, is_integer T = true) ∧
    has_integer [] = false ∧
    has_integer [.tuple Qual.none Ts] = has_integer Ts ∧
    has_integer [.fund Qual.none .float, .fund Qual.none .double] = false ∧
    has_integer [.fund Qual.none .float, .fund Qual.none .int] = true ∧
    has_integer [.tuple Qual.none [.fund Qual.none .float, .fund Qual.none .int]]
      = true := by
  have h1 : has_integer [.fund Qual.none .float, .fund Qual.none .double] = false := by
    rw [has_integer_cons_cons, has_integer_cons_of_not_tuple (.fund Qual.none .double) [] rfl, has_integer_nil]
    rfl
  have h2 : has_integer [.fund Qual.none .float, .fund Qual.none .int] = true := by
    rw [has_integer_cons_cons, has_integer_cons_of_not_tuple (.fund Qual.none .int) [] rfl, has_integer_nil]
    rfl
  refine ⟨has_integer_flat Ts h, has_integer_nil, has_integer_tuple Ts, h1, h2, ?_⟩
  rw [has_integer_tuple, h2]

/-- Witness for C10 on the flat list `short, double`. -/
theorem C10_has_integer_iff_some_witness :
    has_integer [.tuple Qual.none [.fund Qual.none .short, .fund Qual.none .double]]
      = has_integer [.fund Qual.none .short, .fund Qual.none .double] :=
  (C10_has_integer_iff_some [.fund Qual.none .short, .fund Qual.none .double]
    (by
      intro T hT
      simp only [List.mem_cons, List.mem_singleton, List.not_mem_nil, or_false] at hT
      rcases hT with hT | hT <;> rw [hT] <;> rfl)).2.2.1

end Predicates

section Combinators

open ttl

theorem all_convertible_iff_forall (is_convertible : CType → CType → Bool) (To : CType)
    (Fs : List CType) :
    all_convertible is_convertible To Fs = true ↔
      ∀ F ∈ Fs, is_convertible F To = true := by
  induction Fs with
  | nil => simp [all_convertible]
  | cons F U ih => simp [all_convertible, ih]

/-- Claim C11. For every target type `To` and every finite list of source types `Fs`,
`all_convertible<To, Fs...>::value` is true exactly when every `F` of the list is
convertible to `To`; the direction is from `F` to `To`, so when `A` converts to `B` and
`B` does not convert to `A` the fold is true for target `B` and source `A` and false the
other way round; it is true for the empty list. -/
theorem C11_all_convertible_iff_every (is_convertible : CType → CType → Bool)
    (To : CType) (Fs : List CType) :
    (all_convertible is_convertible To Fs = true ↔
      ∀ F ∈ Fs, is_convertible F To = true) ∧
    all_convertible is_convertible To [] = true ∧
    (∀ A B, is_convertible A B = true → is_convertible B A = false →
      all_convertible is_convertible B [A] = true ∧
      all_convertible is_convertible A [B] = false) := by
  refine ⟨all_convertible_iff_forall is_convertible To Fs, rfl, ?_⟩
  intro A B hAB hBA
  simp [all_convertible, hAB, hBA]

/-- Witness for C11 with a relation in which only `int` converts to `double`: the fold
is true for target `double` and source `int`, false for target `int` and source
`double`. -/
theorem C11_all_convertible_iff_every_witness :
    all_convertible
        (fun F T => decide (F.qual = Qual.none) && is_integer F && !is_integer T)
        (.fund Qual.none .double) [.fund Qual.none .int] = true ∧
    all_convertible
        (fun F T => decide (F.qual = Qual.none) && is_integer F && !is_integer T)
        (.fund Qual.none .int) [.fund Qual.none .double] = false :=
  (C11_all_convertible_iff_every
      (fun F T => decide (F.qual = Qual.none) && is_integer F && !is_integer T)
      (.fund Qual.none .double) []).2.2
    (.fund Qual.none .int) (.fund Qual.none .double) rfl rfl

/-- Claim C12. For all types `T` and `F`, `iif_t<true, T, F>` is `T` and
`iif_t<false, T, F>` is `F`; the choice is made by the boolean alone, whatever `T` and
`F` are, also when they are the same type. -/
theorem C12_iif_selects (T F : CType) :
    iif_t true T F = T ∧ iif_t false T F = F ∧
    (∀ B : Bool, iif_t B T F = if B = true then T else F) ∧
    (∀ B : Bool, iif_t B T T = T) := by
  refine ⟨rfl, rfl, ?_, ?_⟩ <;> intro B <;> cases B <;> rfl

theorem all_mono (P Q : CType → Bool) (h : ∀ T, P T = true → Q T = true)
    (Ts : List CType) : all P Ts = true → all Q Ts = true := by
  rw [all_iff_forall, all_iff_forall]
  intro hP T hT
  exact h T (hP T hT)

/-- Claim C13. For every type `T`, `is_valid<T>::value` is true exactly when `T` is an
index label (`is_index<T>` holds) or `T` is integral; so `all_valid<Ts...>::value` is
true exactly when every `T` of the list is an index label or integral, and
`all_integer<Ts...>` true implies `all_valid<Ts...>` true. -/
theorem C13_is_valid_iff (is_index : CType → Bool) (T : CType) (Ts : List CType) :
    (is_valid is_index T = true ↔ (is_index T = true ∨ is_integer T = true)) ∧
    (all_valid is_index Ts = true ↔
      ∀ X ∈ Ts, (is_index X = true ∨ is_integer X = true)) ∧
    (all_integer Ts = true → all_valid is_index Ts = true) := by
  refine ⟨by simp [is_valid], ?_, ?_⟩
  · unfold all_valid
    rw [all_iff_forall]
    simp [is_valid]
  · unfold all_valid all_integer
    apply all_mono
    intro X hX
    simp [is_valid, hX]

/-- Witness for C13 on the list `int, long`, with the index predicate of the data
model. -/
theorem C13_is_valid_iff_witness :
    all_valid is_index [.fund Qual.none .int, .fund Qual.none .long] = true :=
  (C13_is_valid_iff is_index (.index Qual.none 'i')
    [.fund Qual.none .int, .fund Qual.none .long]).2.2 rfl

end Combinators

section IndexLabel

open ttl

/-- Claim C14. A default-constructed label converts to `0`; a label constructed from `v`
converts to `v`; after `x = i` the label converts to `i` whatever it held before; for a
label holding `v` below the largest `int`, pre-increment is defined and the label then
converts to `v + 1`; and `x < e` is true exactly when the held value is below `e`. -/
theorem C14_index_counter_operations (ID : Char) (x : Index ID) (v i e : Int) :
    (Index.ctor : Index ID).to_int = 0 ∧
    (Index.ctor_int v : Index ID).to_int = v ∧
    (x.assign i).to_int = i ∧
    (x.to_int < INT_MAX → x.pre_increment.map Index.to_int = some (x.to_int + 1)) ∧
    (x.lt e = true ↔ x.to_int < e) := by
  refine ⟨rfl, rfl, rfl, ?_, ?_⟩
  · intro h
    have h2 : x.value_ < INT_MAX := h
    simp [Index.pre_increment, h2, Index.to_int]
  · simp [Index.lt, Index.to_int]

/-- Witness for C14: the label `Index<i>` holding `41` is incremented to `42`. -/
theorem C14_index_counter_operations_witness :
    (Index.ctor_int 41 : Index 'i').pre_increment.map Index.to_int = some 42 :=
  (C14_index_counter_operations 'i' (Index.ctor_int 41) 0 0 0).2.2.2.1 (by decide)

theorem index_run_increments (ID : Char) (n : Nat) (x : Index ID)
    (h : x.value_ + n ≤ INT_MAX) :
    x.run (List.replicate n Index.Op.increment) = some ⟨x.value_ + n⟩ := by
  induction n generalizing x with
  | zero => simp [Index.run]
  | succ k ih =>
    have h1 : x.value_ < INT_MAX := by push_cast at h; omega
    have h2 : (⟨x.value_ + 1⟩ : Index ID).value_ + (k : Int) ≤ INT_MAX := by
      push_cast at h
      show x.value_ + 1 + (k : Int) ≤ INT_MAX
      omega
    rw [List.replicate_succ]
    simp only [Index.run, Index.step, Index.pre_increment, h1, if_true, Option.some_bind]
    rw [ih _ h2]
    congr 2
    push_cast
    omega

theorem index_type_eq_iff (a b : Char) (x : Index a) (y : Index b) :
    x.type_of = y.type_of ↔ a = b := by
  constructor
  · intro h
    simp only [Index.type_of] at h
    injection h
  · intro h
    subst h
    rfl

/-- Claim C15. The symbol of a label is fixed and alone decides the axis: whatever
sequence of integer assignments and pre-increments is applied to a label with symbol `c`,
the label that results has `id` equal to `c` and the same type; assigning `i` and then
incrementing `n` times, with `i + n` no larger than the largest `int`, does result in a
label, holding `i + n`; and two labels have the same type exactly when their symbols are
equal, whatever values they hold. -/
theorem C15_index_symbol_invariant (c d : Char) (x : Index c) (y : Index d)
    (ops : List Index.Op) :
    (∀ z, x.run ops = some z → z.id = c ∧ z.type_of = x.type_of) ∧
    (∀ (i : Int) (n : Nat), i + n ≤ INT_MAX →
      ∃ z, x.run (Index.Op.assign i :: List.replicate n Index.Op.increment) = some z ∧
        z.id = c ∧ z.to_int = i + n) ∧
    (x.type_of = y.type_of ↔ c = d) ∧
    (Index.ctor_int 1 : Index 'i').type_of = (Index.ctor_int 5 : Index 'i').type_of ∧
    (Index.ctor_int 3 : Index 'i').type_of ≠ (Index.ctor_int 3 : Index 'j').type_of := by
  refine ⟨fun z _ => ⟨rfl, rfl⟩, ?_, index_type_eq_iff c d x y, rfl, ?_⟩
  · intro i n h
    refine ⟨⟨i + n⟩, ?_, rfl, rfl⟩
    simp only [Index.run, Index.step, Option.some_bind]
    exact index_run_increments c n (x.assign i) h
  · rw [Ne, index_type_eq_iff]
    decide

/-- Witness for C15: the loop counter `Index<k>` set to `0` and advanced three times is
still the label `k`, holding `3`. -/
theorem C15_index_symbol_invariant_witness :
    ∃ z : Index 'k',
      (Index.ctor : Index 'k').run
        (Index.Op.assign 0 :: List.replicate 3 Index.Op.increment) = some z ∧
      z.id = 'k' ∧ z.to_int = 0 + (3 : Nat) :=
  (C15_index_symbol_invariant 'k' 'k' Index.ctor Index.ctor []).2.1 0 3 (by decide)

end IndexLabel

section UnifierBehaviour

open ttl

theorem dimension_eq_some_iff (L R v : Int) :
    dimension L R = some v ↔
      ((L = R ∨ (L = -1 ∧ R ≠ -1) ∨ (L ≠ -1 ∧ R = -1)) ∧ v = if L < R then R else L) := by
  unfold dimension
  by_cases h : dimension_assert L R = true
  · have h2 := (dimension_assert_iff L R).mp h
    simp only [h, if_true, Option.some.injEq, dimension_value, h2, true_and]
    exact eq_comm
  · have h2 : ¬ (L = R ∨ (L = -1 ∧ R ≠ -1) ∨ (L ≠ -1 ∧ R = -1)) :=
      fun k => h ((dimension_assert_iff L R).mpr k)
    simp [h, h2]

theorem dimension_chain_left_iff (a b c v : Int) (ha : -1 ≤ a) (hb : -1 ≤ b)
    (hc : -1 ≤ c) :
    ((dimension a b).bind fun x => dimension x c) = some v ↔
      ((a = -1 ∨ a = v) ∧ (b = -1 ∨ b = v) ∧ (c = -1 ∨ c = v) ∧
        (v = a ∨ v = b ∨ v = c)) := by
  constructor
  · intro h
    obtain ⟨x, hx, hv⟩ := Option.bind_eq_some.mp h
    rw [dimension_eq_some_iff] at hx hv
    obtain ⟨h1, h2⟩ := hx
    obtain ⟨h3, h4⟩ := hv
    split at h2 <;> split at h4 <;> omega
  · rintro ⟨h1, h2, h3, h4⟩
    refine Option.bind_eq_some.mpr ⟨if a < b then b else a, ?_, ?_⟩
    · rw [dimension_eq_some_iff]
      refine ⟨?_, rfl⟩
      omega
    · rw [dimension_eq_some_iff]
      split <;> split <;> omega

theorem dimension_chain_right_iff (a b c v : Int) (ha : -1 ≤ a) (hb : -1 ≤ b)
    (hc : -1 ≤ c) :
    ((dimension b c).bind fun x => dimension a x) = some v ↔
      ((a = -1 ∨ a = v) ∧ (b = -1 ∨ b = v) ∧ (c = -1 ∨ c = v) ∧
        (v = a ∨ v = b ∨ v = c)) := by
  constructor
  · intro h
    obtain ⟨x, hx, hv⟩ := Option.bind_eq_some.mp h
    rw [dimension_eq_some_iff] at hx hv
    obtain ⟨h1, h2⟩ := hx
    obtain ⟨h3, h4⟩ := hv
    split at h2 <;> split at h4 <;> omega
  · rintro ⟨h1, h2, h3, h4⟩
    refine Option.bind_eq_some.mpr ⟨if b < c then c else b, ?_, ?_⟩
    · rw [dimension_eq_some_iff]
      refine ⟨?_, rfl⟩
      omega
    · rw [dimension_eq_some_iff]
      split <;> split <;> omega

/-- Claim C16. Chaining the unifier does not depend on the order: for dimensions `a`,
`b`, `c` that are each `-1` or non-negative, unifying `(unify(a, b), c)` and unifying
`(a, unify(b, c))` both fail or both succeed with the same value, a failed inner
unification making the chain fail. -/
theorem C16_dimension_chain_order (a b c : Int) (ha : -1 ≤ a) (hb : -1 ≤ b)
    (hc : -1 ≤ c) :
    ((dimension a b).bind fun x => dimension x c) =
      ((dimension b c).bind fun x => dimension a x) := by
  apply Option.ext
  intro v
  simp only [Option.mem_def]
  rw [dimension_chain_left_iff a b c v ha hb hc, dimension_chain_right_iff a b c v ha hb hc]

/-- Witness for C16 on `(5, -1, 5)`. -/
theorem C16_dimension_chain_order_witness :
    ((dimension 5 (-1)).bind fun x => dimension x 5) =
      ((dimension (-1) 5).bind fun x => dimension 5 x) :=
  C16_dimension_chain_order 5 (-1) 5 (by decide) (by decide) (by decide)

/-- Claim C17. The unifier does not check the range of its operands and its value is the
larger operand: for every `c < -1` the pairs `(c, -1)` and `(-1, c)` are accepted and
yield `-1`, not `c`; for an accepted pair with both operands at least `-1` the result is
`-1` only when both operands are `-1`. -/
theorem C17_dimension_no_range_check (L R c : Int) :
    dimension_value L R = max L R ∧
    (c < -1 → dimension c (-1) = some (-1) ∧ dimension (-1) c = some (-1) ∧
      dimension c (-1) ≠ some c) ∧
    (-1 ≤ L → -1 ≤ R → dimension L R = some (-1) → L = -1 ∧ R = -1) := by
  refine ⟨?_, ?_, ?_⟩
  · unfold dimension_value
    split <;> omega
  · intro h
    refine ⟨?_, ?_, ?_⟩
    · rw [dimension_eq_some_iff]
      split <;> omega
    · rw [dimension_eq_some_iff]
      split <;> omega
    · rw [Ne, dimension_eq_some_iff]
      intro k
      obtain ⟨_, k2⟩ := k
      split at k2 <;> omega
  · intro hL hR h
    rw [dimension_eq_some_iff] at h
    obtain ⟨_, h2⟩ := h
    split at h2 <;> omega

/-- Witness for C17 at `c = -7`, and at the accepted pair `(-1, -1)`. -/
theorem C17_dimension_no_range_check_witness :
    (dimension (-7) (-1) = some (-1) ∧ dimension (-1) (-7) = some (-1) ∧
      dimension (-7) (-1) ≠ some (-7)) ∧
    ((-1 : Int) = -1 ∧ (-1 : Int) = -1) :=
  ⟨(C17_dimension_no_range_check 0 0 (-7)).2.1 (by decide),
   (C17_dimension_no_range_check (-1) (-1) 0).2.2 (by decide) (by decide) (by decide)⟩

end UnifierBehaviour

section HasInteger

open ttl

theorem is_tuple_of_is_integer (T : CType) (h : is_integer T = true) :
    T.is_tuple = false := by
  cases T <;> first | rfl | simp [is_integer] at h

theorem has_integer_cons_of_ne_nil (T : CType) (U : List CType) (h : U ≠ []) :
    has_integer (T :: U) = (is_integer T || has_integer U) := by
  cases U with
  | nil => exact absurd rfl h
  | cons T2 U2 => exact has_integer_cons_cons T T2 U2

theorem has_integer_append_tuple (Ps Ts : List CType) :
    has_integer (Ps ++ [.tuple Qual.none Ts]) = (Ps.any is_integer || has_integer Ts) := by
  induction Ps with
  | nil => simp [has_integer_tuple]
  | cons P Ps2 ih =>
    have hne : Ps2 ++ [CType.tuple Qual.none Ts] ≠ [] := by simp
    rw [List.cons_append, has_integer_cons_of_ne_nil P _ hne, ih, List.any_cons,
      Bool.or_assoc]

theorem has_integer_single_float : has_integer [.fund Qual.none .float] = false := by
  rw [has_integer_cons_of_not_tuple (.fund Qual.none .float) [] rfl, has_integer_nil]
  rfl

theorem has_integer_single_int : has_integer [.fund Qual.none .int] = true := by
  rw [has_integer_cons_of_not_tuple (.fund Qual.none .int) [] rfl, has_integer_nil]
  rfl

theorem has_integer_tuple_int_then_float :
    has_integer [.tuple Qual.none [.fund Qual.none .int], .fund Qual.none .float]
      = false := by
  rw [has_integer_cons_cons, has_integer_single_float]
  rfl

theorem has_integer_float_then_tuple_int :
    has_integer [.fund Qual.none .float, .tuple Qual.none [.fund Qual.none .int]]
      = true := by
  rw [has_integer_cons_cons, has_integer_tuple, has_integer_single_int]
  rfl

/-- Counterexample to C18: in `has_integer<float, std::tuple<int>>` the tuple is not the
sole argument, neither `float` nor the tuple is integral, and still the value is true:
the elements of the tuple are inspected.  Likewise the inner tuple of
`has_integer<std::tuple<float, std::tuple<int>>>` stands next to another element and is
inspected. -/
theorem C18_trailing_tuple_inspected_counterexample :
    is_integer (.fund Qual.none .float) = false ∧
    is_integer (.tuple Qual.none [.fund Qual.none .int]) = false ∧
    has_integer [.fund Qual.none .float, .tuple Qual.none [.fund Qual.none .int]]
      = true ∧
    has_integer
      [.tuple Qual.none [.fund Qual.none .float, .tuple Qual.none [.fund Qual.none .int]]]
      = true := by
  refine ⟨rfl, rfl, has_integer_float_then_tuple_int, ?_⟩
  rw [has_integer_tuple, has_integer_float_then_tuple_int]

/-- Claim C18, amended. A tuple is inspected element by element exactly when it is the
last argument: for every list `Ts` and every non-empty list `Us`,
`has_integer<std::tuple<Ts...>, Us...>::value` equals `has_integer<Us...>::value`, and
for every list `Ps`, `has_integer<Ps..., std::tuple<Ts...>>::value` is true exactly when
some `P` of `Ps` is integral or `has_integer<Ts...>::value` is true.  So
`has_integer<std::tuple<int>, float>` is false although `has_integer<std::tuple<int>>`
is true, and `has_integer<float, std::tuple<int>>` is true; a tuple nested inside a
tuple is not inspected when another element follows it
(`std::tuple<std::tuple<int>, float>` gives false) and is inspected when it is the last
element (`std::tuple<float, std::tuple<int>>` gives true). -/
theorem C18_has_integer_tuple_last_only (Ts Us Ps : List CType) (hUs : Us ≠ []) :
    has_integer (.tuple Qual.none Ts :: Us) = has_integer Us ∧
    has_integer (Ps ++ [.tuple Qual.none Ts]) = (Ps.any is_integer || has_integer Ts) ∧
    has_integer [.tuple Qual.none [.fund Qual.none .int], .fund Qual.none .float]
      = false ∧
    has_integer [.tuple Qual.none [.fund Qual.none .int]] = true ∧
    has_integer [.fund Qual.none .float, .tuple Qual.none [.fund Qual.none .int]]
      = true ∧
    has_integer
      [.tuple Qual.none [.tuple Qual.none [.fund Qual.none .int], .fund Qual.none .float]]
      = false ∧
    has_integer
      [.tuple Qual.none [.fund Qual.none .float, .tuple Qual.none [.fund Qual.none .int]]]
      = true := by
  refine ⟨?_, has_integer_append_tuple Ps Ts, has_integer_tuple_int_then_float, ?_,
    has_integer_float_then_tuple_int, ?_, ?_⟩
  · rw [has_integer_cons_of_ne_nil _ Us hUs]
    rfl
  · rw [has_integer_tuple, has_integer_single_int]
  · rw [has_integer_tuple, has_integer_tuple_int_then_float]
  · rw [has_integer_tuple, has_integer_float_then_tuple_int]

/-- Witness for C18 on `has_integer<std::tuple<int, long>, double, short>`. -/
theorem C18_has_integer_tuple_last_only_witness :
    has_integer
        [.tuple Qual.none [.fund Qual.none .int, .fund Qual.none .long],
          .fund Qual.none .double, .fund Qual.none .short]
      = has_integer [.fund Qual.none .double, .fund Qual.none .short] :=
  (C18_has_integer_tuple_last_only [.fund Qual.none .int, .fund Qual.none .long]
    [.fund Qual.none .double, .fund Qual.none .short] [] (List.cons_ne_nil _ _)).1

theorem has_integer_flat_eq_not_all (Ts : List CType)
    (h : ∀ T ∈ Ts, T.is_tuple = false) :
    has_integer Ts = !(all (fun T => !is_integer T) Ts) := by
  induction Ts with
  | nil => rw [has_integer_nil]; rfl
  | cons T U ih =>
    have hT : T.is_tuple = false := h T (List.mem_cons_self T U)
    have hU : ∀ X ∈ U, X.is_tuple = false := fun X hX => h X (List.mem_cons_of_mem T hX)
    rw [has_integer_cons_of_not_tuple T U hT, ih hU]
    simp only [all]
    cases is_integer T <;> rfl

/-- Claim C19. On a list `Ts` of types none of which is a tuple, `has_integer<Ts...>` is
the negation of `all` of the negated predicate (no `T` of the list is integral); for
every non-empty `Ts`, `all_integer<Ts...>` true implies `has_integer<Ts...>` true; for
the empty list `all_integer` is true and `has_integer` is false. -/
theorem C19_has_integer_dual_of_all (Ts : List CType) :
    ((∀ T ∈ Ts, T.is_tuple = false) →
      has_integer Ts = !(all (fun T => !is_integer T) Ts)) ∧
    (Ts ≠ [] → all_integer Ts = true → has_integer Ts = true) ∧
    all_integer [] = true ∧ has_integer [] = false := by
  refine ⟨has_integer_flat_eq_not_all Ts, ?_, rfl, has_integer_nil⟩
  intro hne hall
  have hforall : ∀ T ∈ Ts, is_integer T = true := (all_iff_forall is_integer Ts).mp hall
  have hflat : ∀ T ∈ Ts, T.is_tuple = false :=
    fun T hT => is_tuple_of_is_integer T (hforall T hT)
  rw [has_integer_flat Ts hflat]
  cases Ts with
  | nil => exact absurd rfl hne
  | cons T U => exact ⟨T, List.mem_cons_self T U, hforall T (List.mem_cons_self T U)⟩

/-- Witness for C19 on the list `int, short`. -/
theorem C19_has_integer_dual_of_all_witness :
    has_integer [.fund Qual.none .int, .fund Qual.none .short] = true :=
  (C19_has_integer_dual_of_all [.fund Qual.none .int, .fund Qual.none .short]).2.1
    (List.cons_ne_nil _ _) rfl

end HasInteger
